import Mathlib

/-!
# Verification of the CSV bulk-import engine

Shallow embedding of the student bulk-import engine
(`backend/src/services/bulkImportService.js`, `backend/src/services/csvService.js`,
and the `bulkImport` controller of `backend/src/controllers/studentController.js`)
together with the persistence semantics it relies on: a Postgres store with
case-sensitive string matching, a unique index on `users.email` and on
`students.student_code` (see the `User` and `Student` Sequelize models),
per-row transactions whose writes become visible on commit, and the Sequelize
association aliases registered in `backend/src/models/index.js` — the only
User→Student association is aliased `studentProfile` and the Student→User one
`user` — against which every query's `include` aliases are resolved.

Each JS function is translated into a Lean function of the same name operating
on an explicit `Store`.  Persistence errors (transient DB failures) are modelled
by a `FaultSpec` oracle deciding whether a given create call fails, in addition
to the unique-index violations that the store model itself enforces; a rejected
promise is modelled as an `Except` error.
-/

namespace BulkImport

/-- Model of JavaScript `String.prototype.toLowerCase` (per-character lowering). -/
def lower (s : String) : String := ⟨s.data.map Char.toLower⟩

/-- Model of JS `record.password || 'student123'` style defaulting:
`undefined`/`null` (here `none`) and the empty string are falsy. -/
def jsOr (o : Option String) (d : String) : String :=
  match o with
  | none => d
  | some s => if s = "" then d else s

/-- Model of JS `record.phone || null`: an absent or empty string becomes `null`. -/
def truthyOpt (o : Option String) : Option String :=
  match o with
  | none => none
  | some s => if s = "" then none else some s

/-- Model of JS `record.phone || student.phone`. -/
def jsOrOpt (o : Option String) (d : Option String) : Option String :=
  match o with
  | none => d
  | some s => if s = "" then d else some s

/-- Model of `bcrypt.hash(password, 10)`: an injective tag of the plaintext
standing in for the real digest (the engine never inspects hashes). -/
def bcryptHash (password : String) : String := "$2b$10$" ++ password

/-- A row of the `users` table (`User` model: unique `email`, `name`,
`password_hash`, `role`). Ids model the UUID primary keys. -/
structure UserRec where
  id : Nat
  email : String
  name : String
  password_hash : String
  role : String
  deriving Repr, DecidableEq

/-- A row of the `students` table (`Student` model: unique `student_code`,
`user_id` referencing `users`, optional `phone`). -/
structure StudentRec where
  id : Nat
  user_id : Nat
  student_code : String
  phone : Option String
  deriving Repr, DecidableEq

/-- The persistent store: the two tables the import engine touches, plus a
counter supplying fresh primary keys. -/
structure Store where
  users : List UserRec
  students : List StudentRec
  nextId : Nat
  deriving Repr, DecidableEq

/-- One validated CSV record as handed to the import service
(`name`, `email`, `student_code` required; `phone`, `password` optional;
`_rowNumber` added by the parser). -/
structure Rec where
  name : String
  email : String
  student_code : String
  phone : Option String
  password : Option String
  rowNumber : Nat
  deriving Repr, DecidableEq

/-- The three duplicate-handling strategies (`DUPLICATE_STRATEGIES`). -/
inductive Strategy where
  | skip
  | update
  | suffix
  deriving Repr, DecidableEq

/-- Batch size used by `processBulkImport`. -/
def BATCH_SIZE : Nat := 100

/-- Row-outcome statuses produced by `processRecord`. -/
inductive RStatus where
  | created
  | created_with_suffix
  | updated
  | skipped
  | error
  deriving Repr, DecidableEq

/-- One per-row result object as returned by `processRecord` (status, the
emitted record snapshot, and the human-readable message). -/
structure Outcome where
  status : RStatus
  email : String
  name : Option String
  student_code : String
  phone : Option String
  message : String
  deriving Repr, DecidableEq

/-- Fault oracle modelling transient persistence errors on the two create
calls (keyed by the email being inserted, resp. the student code). -/
structure FaultSpec where
  userCreateFails : String → Bool
  studentCreateFails : String → Bool

/-- The fault-free oracle. -/
def noFaults : FaultSpec := ⟨fun _ => false, fun _ => false⟩

/-- `SELECT 1 FROM users WHERE email = e` — Postgres string equality is
case-sensitive, so this is exact matching. -/
def emailExistsExact (s : Store) (e : String) : Bool :=
  s.users.any (fun u => u.email = e)

/-- `SELECT 1 FROM students WHERE student_code = c` (exact matching). -/
def codeExistsExact (s : Store) (c : String) : Bool :=
  s.students.any (fun st => st.student_code = c)

/-- `User.create` inside the row transaction: fails on a transient fault or a
unique-index violation on `email`; otherwise appends the row. -/
def userCreate (f : FaultSpec) (s : Store) (email name password_hash role : String) :
    Option (UserRec × Store) :=
  if f.userCreateFails email || emailExistsExact s email then none
  else
    let u : UserRec := ⟨s.nextId, email, name, password_hash, role⟩
    some (u, ⟨s.users ++ [u], s.students, s.nextId + 1⟩)

/-- `Student.create` inside the row transaction: fails on a transient fault or
a unique-index violation on `student_code`; otherwise appends the row. -/
def studentCreate (f : FaultSpec) (s : Store) (user_id : Nat) (student_code : String)
    (phone : Option String) : Option (StudentRec × Store) :=
  if f.studentCreateFails student_code || codeExistsExact s student_code then none
  else
    let st : StudentRec := ⟨s.nextId, user_id, student_code, phone⟩
    some (st, ⟨s.users, s.students ++ [st], s.nextId + 1⟩)

/-- `user.update({name}, {transaction})`: in-place update keyed by id. -/
def updateUserName (s : Store) (uid : Nat) (name : String) : Store :=
  ⟨s.users.map (fun u => if u.id = uid then { u with name := name } else u),
   s.students, s.nextId⟩

/-- `student.update({phone}, {transaction})`: in-place update keyed by id. -/
def updateStudentPhone (s : Store) (stid : Nat) (phone : Option String) : Store :=
  ⟨s.users,
   s.students.map (fun st => if st.id = stid then { st with phone := phone } else st),
   s.nextId⟩

/-- JS `Map.prototype.set`: overwrite the value if the key is present,
otherwise append the binding. -/
def mapSet {α : Type} (m : List (String × α)) (k : String) (v : α) : List (String × α) :=
  match m with
  | [] => [(k, v)]
  | (k', v') :: rest => if k' = k then (k, v) :: rest else (k', v') :: mapSet rest k v

/-- JS `Map.prototype.get`. -/
def mapGet {α : Type} (m : List (String × α)) (k : String) : Option α :=
  match m with
  | [] => none
  | (k', v) :: rest => if k' = k then some v else mapGet rest k

/-- Value stored in `emailMap`: the matched user together with its eagerly
loaded `student` association (`required: false`). -/
structure EmailHit where
  user : UserRec
  student : Option StudentRec
  deriving Repr, DecidableEq

/-- Value stored in `studentCodeMap`: the matched student together with its
eagerly loaded `user` association (`required: true`). -/
structure CodeHit where
  user : UserRec
  student : StudentRec
  deriving Repr, DecidableEq

/-- The User→Student join a working `hasOne` include would perform:
first student whose `user_id` is the given user id. -/
def findStudentOfUser (s : Store) (uid : Nat) : Option StudentRec :=
  s.students.find? (fun st => st.user_id = uid)

/-- The Student→User join of the `include: [{ model: User, as: 'user',
required: true }]` query. -/
def findUserOfStudent (s : Store) (st : StudentRec) : Option UserRec :=
  s.users.find? (fun u => u.id = st.user_id)

/-- The two lookup maps built by `detectDatabaseDuplicates`. -/
structure DupInfo where
  emailMap : List (String × EmailHit)
  codeMap : List (String × CodeHit)
  deriving Repr, DecidableEq

/-- Errors surfaced by the Sequelize layer: `eagerLoading a` models the
`SequelizeEagerLoadingError` a query rejects with when its `include` asks for
the alias `a` but no association with that alias is registered on the model. -/
inductive DbError where
  | eagerLoading (includeAs : String)
  deriving Repr, DecidableEq

/-- The alias under which `models/index.js` registers the only User→Student
association: `User.hasOne(Student, { foreignKey: 'user_id', as: 'studentProfile' })`. -/
def userStudentAssociationAlias : String := "studentProfile"

/-- The alias under which `models/index.js` registers the Student→User
association: `Student.belongsTo(User, { foreignKey: 'user_id', as: 'user' })`. -/
def studentUserAssociationAlias : String := "user"

/-- `detectDatabaseDuplicates(records)`: one `User.findAll` over all lowercased
emails with `include: [{ model: Student, as: 'student', required: false }]`,
then one `Student.findAll` over all student codes with
`include: [{ model: User, as: 'user', required: true }]`, loaded into two maps
keyed by `email.toLowerCase()` resp. `student_code`.  Sequelize resolves each
`include`'s `as` against the aliases registered in `models/index.js` and
rejects the query with a `SequelizeEagerLoadingError` when none matches; the
first query asks for `as: 'student'` while the only registered User→Student
alias is `studentProfile`, so that query always rejects (the `.error` branch)
and the map-building code after it is unreachable. -/
def detectDatabaseDuplicates (s : Store) (records : List Rec) :
    Except DbError DupInfo :=
  let emails := records.map (fun r => lower r.email)
  let studentCodes := records.map (fun r => r.student_code)
  if "student" = userStudentAssociationAlias then
    let existingUsers := s.users.filter (fun u => emails.contains u.email)
    if "user" = studentUserAssociationAlias then
      let existingStudents := (s.students.filter
        (fun st => studentCodes.contains st.student_code)).filterMap
        (fun st => (findUserOfStudent s st).map (fun u => (st, u)))
      let emailMap := existingUsers.foldl
        (fun m u => mapSet m (lower u.email) ⟨u, findStudentOfUser s u.id⟩) []
      let codeMap := existingStudents.foldl
        (fun m p => mapSet m p.1.student_code ⟨p.2, p.1⟩) []
      .ok ⟨emailMap, codeMap⟩
    else .error (.eagerLoading "user")
  else .error (.eagerLoading "student")

/-- `generateEmailWithSuffix(email, suffix)`: JS
`const [localPart, domain] = email.split('@')` followed by
`` `${localPart}_${suffix}@${domain}` `` (a missing second component renders
as `"undefined"`, exactly as the JS template literal would). -/
def generateEmailWithSuffix (email : String) (suffix : Nat) : String :=
  let localPart : String := ⟨email.data.takeWhile (fun c => c ≠ '@')⟩
  let domain : String :=
    match email.data.dropWhile (fun c => c ≠ '@') with
    | [] => "undefined"
    | _ :: tail => ⟨tail.takeWhile (fun c => c ≠ '@')⟩
  localPart ++ "_" ++ toString suffix ++ "@" ++ domain

/-- Loop body of `findAvailableEmail`: probe the current suffix, return on a
free address, otherwise increment and fail once the suffix passes 1000. -/
def findAvailableEmailFrom (s : Store) (originalEmail : String) :
    Nat → Nat → Option String
  | _, 0 => none
  | suffix, fuel + 1 =>
    let email := generateEmailWithSuffix originalEmail suffix
    if !emailExistsExact s email then some email
    else if suffix + 1 > 1000 then none
    else findAvailableEmailFrom s originalEmail (suffix + 1) fuel

/-- `findAvailableEmail(originalEmail)`: probe `local_1@domain`,
`local_2@domain`, … against the store; `none` models the
`Could not find available email` throw once the suffix exceeds 1000. -/
def findAvailableEmail (s : Store) (originalEmail : String) : Option String :=
  findAvailableEmailFrom s originalEmail 1 1000

/-- The result object of the `catch` block of `processRecord`
(`{status: 'error', record: {email, student_code}, message}`). -/
def errorOutcome (r : Rec) (message : String) : Outcome :=
  ⟨.error, r.email, none, r.student_code, none, message⟩

/-- The `status: 'skipped'` result objects of `processRecord`. -/
def skippedOutcome (r : Rec) (message : String) : Outcome :=
  ⟨.skipped, r.email, none, r.student_code, none, message⟩

/-- `processRecord(record, duplicateInfo, strategy, transaction)`, fused with
the commit performed by its caller: the returned store is the committed state
after the row.  No operation inside a row ever reads its own uncommitted
writes, and the `catch` inside `processRecord` swallows every error before the
caller's `transaction.commit()`, so the error paths commit whatever had been
written so far (in particular a user without its student). The
`user.destroy({transaction})` in the suffix path undoes the pending user
creation, so that path commits no net change. -/
def processRecord (f : FaultSpec) (r : Rec) (duplicateInfo : DupInfo)
    (strategy : Strategy) (s : Store) : Outcome × Store :=
  let email := lower r.email
  let studentCode := r.student_code
  let existingByEmail := mapGet duplicateInfo.emailMap email
  let existingByCode := mapGet duplicateInfo.codeMap studentCode
  let isDuplicateEmail := existingByEmail.isSome
  let isDuplicateCode := existingByCode.isSome
  if !isDuplicateEmail && !isDuplicateCode then
    -- Case 1: no duplicates — create new User + Student
    let password := jsOr r.password "student123"
    let password_hash := bcryptHash password
    match userCreate f s r.email r.name password_hash "student" with
    | none => (errorOutcome r "error", s)
    | some (u, s1) =>
      match studentCreate f s1 u.id r.student_code (truthyOpt r.phone) with
      | none => (errorOutcome r "error", s1)
      | some (st, s2) =>
        (⟨.created, u.email, some u.name, st.student_code, st.phone,
          "Student created successfully"⟩, s2)
  else
    -- Case 2: duplicate found — apply strategy
    match strategy with
    | .skip =>
      (skippedOutcome r
        (if isDuplicateEmail then "Email already exists" else "Student code already exists"),
       s)
    | .update =>
      match existingByEmail with
      | some hit =>
        match hit.student with
        | some st =>
          let s1 := updateUserName s hit.user.id r.name
          let newPhone := jsOrOpt r.phone st.phone
          let s2 := updateStudentPhone s1 st.id newPhone
          (⟨.updated, hit.user.email, some r.name, st.student_code, newPhone,
            "Student updated successfully"⟩, s2)
        | none =>
          (skippedOutcome r "Email and student code mismatch - cannot update", s)
      | none =>
        (skippedOutcome r "Email and student code mismatch - cannot update", s)
    | .suffix =>
      if isDuplicateEmail then
        match findAvailableEmail s r.email with
        | none => (errorOutcome r ("Could not find available email for " ++ r.email), s)
        | some newEmail =>
          let password := jsOr r.password "student123"
          let password_hash := bcryptHash password
          match userCreate f s newEmail r.name password_hash "student" with
          | none => (errorOutcome r "error", s)
          | some (u, s1) =>
            if isDuplicateCode then
              -- rollback user creation (user.destroy within the transaction)
              (skippedOutcome r "Student code already exists - cannot create with suffix", s)
            else
              match studentCreate f s1 u.id r.student_code (truthyOpt r.phone) with
              | none => (errorOutcome r "error", s1)
              | some (st, s2) =>
                (⟨.created_with_suffix, u.email, some u.name, st.student_code, st.phone,
                  "Student created with email suffix: " ++ newEmail⟩, s2)
      else
        (skippedOutcome r "Student code already exists", s)

/-- The running result ledger of `processBulkImport`. -/
structure Results where
  total : Nat
  created : Nat
  updated : Nat
  skipped : Nat
  failed : Nat
  details : List (Nat × Outcome)
  deriving Repr, DecidableEq

/-- Counter update of `processBulkImport` for one row result. -/
def tally (res : Results) (status : RStatus) : Results :=
  match status with
  | .created => { res with created := res.created + 1 }
  | .created_with_suffix => { res with created := res.created + 1 }
  | .updated => { res with updated := res.updated + 1 }
  | .skipped => { res with skipped := res.skipped + 1 }
  | .error => { res with failed := res.failed + 1 }

/-- Inner loop of `processBulkImport` over one batch: process each record,
commit, update counters, and whenever a row results in `created` or
`created_with_suffix` rebuild `duplicateInfo` from the not-yet-processed
remainder of the batch.  That rebuild runs inside the row's `try` block but
after `transaction.commit()`; if it rejects, the `catch` attempts
`transaction.rollback()` on the already-committed transaction, which itself
throws and escapes `processBulkImport` — modelled by propagating the error,
the store keeping the row's committed writes. -/
def processBatchAux (f : FaultSpec) (strategy : Strategy) :
    List Rec → DupInfo → Store → Results → Except DbError Results × Store
  | [], _, s, res => (.ok res, s)
  | r :: rest, duplicateInfo, s, res =>
    let step := processRecord f r duplicateInfo strategy s
    let result := step.1
    let s' := step.2
    let res' :=
      { tally res result.status with
        details := res.details ++ [(r.rowNumber, result)] }
    if (result.status = .created ∨ result.status = .created_with_suffix) ∧ rest ≠ []
    then
      match detectDatabaseDuplicates s' rest with
      | .error e => (.error e, s')
      | .ok duplicateInfo' => processBatchAux f strategy rest duplicateInfo' s' res'
    else processBatchAux f strategy rest duplicateInfo s' res'

/-- Structural worker for `chunksOf`; the fuel (`l.length` at top level) only
serves to make the recursion structural, it never runs out. -/
def chunksOfAux : Nat → List Rec → List (List Rec)
  | _, [] => []
  | 0, _ :: _ => []
  | fuel + 1, r :: rest =>
    (r :: rest).take BATCH_SIZE :: chunksOfAux fuel ((r :: rest).drop BATCH_SIZE)

/-- `records.slice(i, i + BATCH_SIZE)` chunking of the outer loop. -/
def chunksOf (l : List Rec) : List (List Rec) := chunksOfAux l.length l

/-- Outer loop of `processBulkImport` over the batches.  The
`detectDatabaseDuplicates` call at the start of each batch is awaited outside
any `try`/`catch`, so its rejection escapes `processBulkImport` before any row
of the batch is processed: the whole call rejects with that error and the
store is whatever had been committed up to that point. -/
def processBulkImportAux (f : FaultSpec) (strategy : Strategy) :
    List (List Rec) → Store → Results → Except DbError Results × Store
  | [], s, res => (.ok res, s)
  | batch :: batches, s, res =>
    match detectDatabaseDuplicates s batch with
    | .error e => (.error e, s)
    | .ok duplicateInfo =>
      match processBatchAux f strategy batch duplicateInfo s res with
      | (.ok res', s') => processBulkImportAux f strategy batches s' res'
      | (.error e, s') => (.error e, s')

/-- `processBulkImport(records, strategy)`: process the records in batches of
`BATCH_SIZE`, querying a fresh `DupInfo` at the start of each batch.  An
`.error` first component models the returned promise rejecting (the thrown
error reaches the controller's `asyncHandler`); the store alongside is the
persistent state at that point. -/
def processBulkImport (f : FaultSpec) (records : List Rec) (strategy : Strategy)
    (s : Store) : Except DbError Results × Store :=
  processBulkImportAux f strategy (chunksOf records) s ⟨records.length, 0, 0, 0, 0, []⟩

/-- One entry of the `duplicates` list of `detectInternalDuplicates`. -/
structure InternalDup where
  rowNumber : Nat
  field : String
  value : String
  duplicateOf : Nat
  message : String
  deriving Repr, DecidableEq

/-- The result of `detectInternalDuplicates`. -/
structure InternalDupResult where
  hasDuplicates : Bool
  duplicates : List InternalDup
  duplicateCount : Nat
  deriving Repr, DecidableEq

/-- Loop of `detectInternalDuplicates`: fold over the records carrying the
first-seen email map, the first-seen code map, and the duplicate list. -/
def detectInternalDuplicatesAux :
    List Rec → List (String × Nat) → List (String × Nat) → List InternalDup →
    List InternalDup
  | [], _, _, duplicates => duplicates
  | r :: rest, emailMap, studentCodeMap, duplicates =>
    let email := lower r.email
    let afterEmail :
        List (String × Nat) × List InternalDup :=
      match mapGet emailMap email with
      | some first =>
        (emailMap,
         duplicates ++ [⟨r.rowNumber, "email", r.email, first,
           "Duplicate email found (first occurrence at row " ++ toString first ++ ")"⟩])
      | none => (mapSet emailMap email r.rowNumber, duplicates)
    let afterCode :
        List (String × Nat) × List InternalDup :=
      match mapGet studentCodeMap r.student_code with
      | some first =>
        (studentCodeMap,
         afterEmail.2 ++ [⟨r.rowNumber, "student_code", r.student_code, first,
           "Duplicate student code found (first occurrence at row " ++ toString first ++ ")"⟩])
      | none => (mapSet studentCodeMap r.student_code r.rowNumber, afterEmail.2)
    detectInternalDuplicatesAux rest afterEmail.1 afterCode.1 afterCode.2

/-- `detectInternalDuplicates(records)` of `csvService.js`. -/
def detectInternalDuplicates (records : List Rec) : InternalDupResult :=
  let duplicates := detectInternalDuplicatesAux records [] [] []
  ⟨!duplicates.isEmpty, duplicates, duplicates.length⟩

/-- Rejection reasons of the `bulkImport` controller: the two pre-batch
rejections, plus a Sequelize error escaping `processBulkImport` (caught by the
controller's `asyncHandler`). -/
inductive ImportError where
  | noValidRecords
  | internalDuplicates (dups : List InternalDup)
  | sequelize (e : DbError)
  deriving Repr

/-- The `bulkImport` controller of `studentController.js`, modelled from the
point where `parseAndValidateCSV` has produced `validRecords` (CSV decoding
performs no persistence): reject when there are no valid records, reject the
whole call when `detectInternalDuplicates` reports duplicates, and only
otherwise invoke `processBulkImport`, whose rejection surfaces as an error
response.  The store is returned alongside so that "zero persistence writes"
on rejection is expressible. -/
def bulkImport (f : FaultSpec) (validRecords : List Rec) (strategy : Strategy)
    (s : Store) : Except ImportError Results × Store :=
  if validRecords.length = 0 then (.error .noValidRecords, s)
  else
    let internalDuplicates := detectInternalDuplicates validRecords
    if internalDuplicates.hasDuplicates then
      (.error (.internalDuplicates internalDuplicates.duplicates), s)
    else
      let run := processBulkImport f validRecords strategy s
      (match run.1 with
       | .ok res => .ok res
       | .error e => .error (.sequelize e), run.2)

/-! ## Basic lemmas about the JS `Map` model -/

theorem mapGet_mapSet {α : Type} (m : List (String × α)) (k k' : String) (v : α) :
    mapGet (mapSet m k v) k' = if k = k' then some v else mapGet m k' := by
  induction m with
  | nil => simp [mapSet, mapGet]
  | cons p rest ih =>
    obtain ⟨k₀, v₀⟩ := p
    simp only [mapSet]
    by_cases h₀ : k₀ = k
    · subst h₀
      rw [if_pos rfl]
      by_cases h₁ : k₀ = k' <;> simp [mapGet, h₁]
    · rw [if_neg h₀]
      by_cases h₁ : k₀ = k'
      · subst h₁
        have hne : k ≠ k₀ := fun hh => h₀ hh.symm
        simp [mapGet, if_neg hne]
      · simp [mapGet, h₁, ih]

/-! ## Create-call inversion lemmas -/

theorem userCreate_some {f : FaultSpec} {s : Store} {email name hash role : String}
    {u : UserRec} {s' : Store} (h : userCreate f s email name hash role = some (u, s')) :
    s'.users = s.users ++ [u] ∧ s'.students = s.students ∧
    u = ⟨s.nextId, email, name, hash, role⟩ ∧ s'.nextId = s.nextId + 1 ∧
    f.userCreateFails email = false ∧ emailExistsExact s email = false := by
  unfold userCreate at h
  split at h
  · exact absurd h (by simp)
  · next hcond =>
    rw [Bool.or_eq_true] at hcond
    push_neg at hcond
    obtain ⟨h1, h2⟩ := Prod.mk.injEq .. ▸ Option.some.injEq .. ▸ h
    subst h1
    subst h2
    exact ⟨rfl, rfl, rfl, rfl, by simpa using hcond.1, by simpa using hcond.2⟩

theorem studentCreate_some {f : FaultSpec} {s : Store} {uid : Nat} {code : String}
    {phone : Option String} {st : StudentRec} {s' : Store}
    (h : studentCreate f s uid code phone = some (st, s')) :
    s'.users = s.users ∧ s'.students = s.students ++ [st] ∧
    st = ⟨s.nextId, uid, code, phone⟩ ∧ s'.nextId = s.nextId + 1 ∧
    f.studentCreateFails code = false ∧ codeExistsExact s code = false := by
  unfold studentCreate at h
  split at h
  · exact absurd h (by simp)
  · next hcond =>
    rw [Bool.or_eq_true] at hcond
    push_neg at hcond
    obtain ⟨h1, h2⟩ := Prod.mk.injEq .. ▸ Option.some.injEq .. ▸ h
    subst h1
    subst h2
    exact ⟨rfl, rfl, rfl, rfl, by simpa using hcond.1, by simpa using hcond.2⟩

/-! ## Branch equations for `processRecord` -/

theorem processRecord_create_eq (f : FaultSpec) (r : Rec) (info : DupInfo)
    (strat : Strategy) (s : Store)
    (hE : mapGet info.emailMap (lower r.email) = none)
    (hC : mapGet info.codeMap r.student_code = none) :
    processRecord f r info strat s =
      match userCreate f s r.email r.name (bcryptHash (jsOr r.password "student123"))
          "student" with
      | none => (errorOutcome r "error", s)
      | some (u, s1) =>
        match studentCreate f s1 u.id r.student_code (truthyOpt r.phone) with
        | none => (errorOutcome r "error", s1)
        | some (st, s2) =>
          (⟨.created, u.email, some u.name, st.student_code, st.phone,
            "Student created successfully"⟩, s2) := by
  simp only [processRecord, hE, hC, Option.isSome_none, Bool.not_false, Bool.and_self,
    if_true]

theorem processRecord_skip_eq (f : FaultSpec) (r : Rec) (info : DupInfo) (s : Store)
    (hdup : (mapGet info.emailMap (lower r.email)).isSome = true ∨
      (mapGet info.codeMap r.student_code).isSome = true) :
    processRecord f r info .skip s =
      (skippedOutcome r
        (if (mapGet info.emailMap (lower r.email)).isSome then "Email already exists"
         else "Student code already exists"), s) := by
  have hcond : (!(mapGet info.emailMap (lower r.email)).isSome &&
      !(mapGet info.codeMap r.student_code).isSome) = false := by
    rcases hdup with h | h <;> simp [h]
  simp only [processRecord, hcond, Bool.false_eq_true, if_false]

theorem processRecord_update_hit_eq (f : FaultSpec) (r : Rec) (info : DupInfo)
    (s : Store) (hit : EmailHit) (st : StudentRec)
    (hE : mapGet info.emailMap (lower r.email) = some hit)
    (hs : hit.student = some st) :
    processRecord f r info .update s =
      (⟨.updated, hit.user.email, some r.name, st.student_code,
        jsOrOpt r.phone st.phone, "Student updated successfully"⟩,
       updateStudentPhone (updateUserName s hit.user.id r.name) st.id
         (jsOrOpt r.phone st.phone)) := by
  simp only [processRecord, hE, hs, Option.isSome_some, Bool.not_true, Bool.false_and,
    Bool.false_eq_true, if_false]

theorem processRecord_update_noprofile_eq (f : FaultSpec) (r : Rec) (info : DupInfo)
    (s : Store) (hit : EmailHit)
    (hE : mapGet info.emailMap (lower r.email) = some hit)
    (hs : hit.student = none) :
    processRecord f r info .update s =
      (skippedOutcome r "Email and student code mismatch - cannot update", s) := by
  simp only [processRecord, hE, hs, Option.isSome_some, Bool.not_true, Bool.false_and,
    Bool.false_eq_true, if_false]

theorem processRecord_update_noemail_eq (f : FaultSpec) (r : Rec) (info : DupInfo)
    (s : Store) (hE : mapGet info.emailMap (lower r.email) = none)
    (hC : (mapGet info.codeMap r.student_code).isSome = true) :
    processRecord f r info .update s =
      (skippedOutcome r "Email and student code mismatch - cannot update", s) := by
  simp only [processRecord, hE, hC, Option.isSome_none, Bool.not_false, Bool.not_true,
    Bool.true_and, Bool.and_false, Bool.false_eq_true, if_false]

theorem processRecord_suffix_alloc_fail_eq (f : FaultSpec) (r : Rec) (info : DupInfo)
    (s : Store) (hE : (mapGet info.emailMap (lower r.email)).isSome = true)
    (hfa : findAvailableEmail s r.email = none) :
    processRecord f r info .suffix s =
      (errorOutcome r ("Could not find available email for " ++ r.email), s) := by
  simp only [processRecord, hE, hfa, Bool.not_true, Bool.false_and, Bool.false_eq_true,
    if_false, if_true]

theorem processRecord_suffix_ucfail_eq (f : FaultSpec) (r : Rec) (info : DupInfo)
    (s : Store) (newEmail : String)
    (hE : (mapGet info.emailMap (lower r.email)).isSome = true)
    (hfa : findAvailableEmail s r.email = some newEmail)
    (hu : userCreate f s newEmail r.name (bcryptHash (jsOr r.password "student123"))
      "student" = none) :
    processRecord f r info .suffix s = (errorOutcome r "error", s) := by
  simp only [processRecord, hE, hfa, hu, Bool.not_true, Bool.false_and,
    Bool.false_eq_true, if_false, if_true]

theorem processRecord_suffix_codedup_eq (f : FaultSpec) (r : Rec) (info : DupInfo)
    (s : Store) (newEmail : String) (u : UserRec) (s1 : Store)
    (hE : (mapGet info.emailMap (lower r.email)).isSome = true)
    (hfa : findAvailableEmail s r.email = some newEmail)
    (hu : userCreate f s newEmail r.name (bcryptHash (jsOr r.password "student123"))
      "student" = some (u, s1))
    (hC : (mapGet info.codeMap r.student_code).isSome = true) :
    processRecord f r info .suffix s =
      (skippedOutcome r "Student code already exists - cannot create with suffix", s) := by
  simp only [processRecord, hE, hfa, hu, hC, Bool.not_true, Bool.false_and,
    Bool.false_eq_true, if_false, if_true]

theorem processRecord_suffix_create_eq (f : FaultSpec) (r : Rec) (info : DupInfo)
    (s : Store) (newEmail : String) (u : UserRec) (s1 : Store)
    (hE : (mapGet info.emailMap (lower r.email)).isSome = true)
    (hfa : findAvailableEmail s r.email = some newEmail)
    (hu : userCreate f s newEmail r.name (bcryptHash (jsOr r.password "student123"))
      "student" = some (u, s1))
    (hC : mapGet info.codeMap r.student_code = none) :
    processRecord f r info .suffix s =
      match studentCreate f s1 u.id r.student_code (truthyOpt r.phone) with
      | none => (errorOutcome r "error", s1)
      | some (st, s2) =>
        (⟨.created_with_suffix, u.email, some u.name, st.student_code, st.phone,
          "Student created with email suffix: " ++ newEmail⟩, s2) := by
  simp only [processRecord, hE, hfa, hu, hC, Option.isSome_none, Bool.not_true,
    Bool.false_and, Bool.false_eq_true, if_false, if_true]

theorem processRecord_suffix_codeonly_eq (f : FaultSpec) (r : Rec) (info : DupInfo)
    (s : Store) (hE : mapGet info.emailMap (lower r.email) = none)
    (hC : (mapGet info.codeMap r.student_code).isSome = true) :
    processRecord f r info .suffix s =
      (skippedOutcome r "Student code already exists", s) := by
  simp only [processRecord, hE, hC, Option.isSome_none, Bool.not_false, Bool.not_true,
    Bool.true_and, Bool.and_false, Bool.false_eq_true, if_false]

/-! ## Suffix allocation -/

theorem findAvailableEmailFrom_eq_some (s : Store) (orig : String) :
    ∀ (fuel σ n : Nat), σ + fuel = 1001 → 1 ≤ σ → σ ≤ n → n ≤ 1000 →
    emailExistsExact s (generateEmailWithSuffix orig n) = false →
    (∀ m, σ ≤ m → m < n → emailExistsExact s (generateEmailWithSuffix orig m) = true) →
    findAvailableEmailFrom s orig σ fuel = some (generateEmailWithSuffix orig n) := by
  intro fuel
  induction fuel with
  | zero => omega
  | succ fuel ih =>
    intro σ n hσf hσ1 hσn hn1000 hfree htaken
    rw [findAvailableEmailFrom]
    rcases Nat.eq_or_lt_of_le hσn with rfl | hlt
    · rw [hfree]
      simp
    · rw [htaken σ le_rfl hlt]
      simp only [Bool.not_true, Bool.false_eq_true, if_false]
      rw [if_neg (by omega)]
      exact ih (σ + 1) n (by omega) (by omega) (by omega) hn1000 hfree
        (fun m hm1 hm2 => htaken m (by omega) hm2)

theorem findAvailableEmailFrom_eq_none (s : Store) (orig : String) :
    ∀ (fuel σ : Nat), σ + fuel = 1001 → 1 ≤ σ →
    (∀ m, σ ≤ m → m ≤ 1000 → emailExistsExact s (generateEmailWithSuffix orig m) = true) →
    findAvailableEmailFrom s orig σ fuel = none := by
  intro fuel
  induction fuel with
  | zero => intro σ _ _ _; rfl
  | succ fuel ih =>
    intro σ hσf hσ1 htaken
    rw [findAvailableEmailFrom]
    rw [htaken σ le_rfl (by omega)]
    simp only [Bool.not_true, Bool.false_eq_true, if_false]
    by_cases hend : σ + 1 > 1000
    · rw [if_pos hend]
    · rw [if_neg hend]
      exact ih (σ + 1) (by omega) (by omega) (fun m hm1 hm2 => htaken m (by omega) hm2)

theorem findAvailableEmailFrom_some_spec (s : Store) (orig : String) :
    ∀ (fuel σ : Nat) (e : String), σ ≤ 1000 →
    findAvailableEmailFrom s orig σ fuel = some e →
    emailExistsExact s e = false ∧ ∃ n, σ ≤ n ∧ n ≤ 1000 ∧
      e = generateEmailWithSuffix orig n := by
  intro fuel
  induction fuel with
  | zero => intro σ e _ h; exact absurd h (by simp [findAvailableEmailFrom])
  | succ fuel ih =>
    intro σ e hσ h
    rw [findAvailableEmailFrom] at h
    by_cases hfree : emailExistsExact s (generateEmailWithSuffix orig σ) = false
    · rw [hfree] at h
      simp only [Bool.not_false, if_true, Option.some.injEq] at h
      subst h
      exact ⟨hfree, σ, le_rfl, hσ, rfl⟩
    · rw [Bool.not_eq_false] at hfree
      rw [hfree] at h
      simp only [Bool.not_true, Bool.false_eq_true, if_false] at h
      by_cases hend : σ + 1 > 1000
      · rw [if_pos hend] at h
        exact absurd h (by simp)
      · rw [if_neg hend] at h
        obtain ⟨h1, n, hn1, hn2, hn3⟩ := ih (σ + 1) e (by omega) h
        exact ⟨h1, n, by omega, hn2, hn3⟩

theorem findAvailableEmail_some_spec {s : Store} {orig e : String}
    (h : findAvailableEmail s orig = some e) :
    emailExistsExact s e = false ∧ ∃ n, 1 ≤ n ∧ n ≤ 1000 ∧
      e = generateEmailWithSuffix orig n := by
  obtain ⟨h1, n, hn1, hn2, hn3⟩ :=
    findAvailableEmailFrom_some_spec s orig 1000 1 e (by omega) h
  exact ⟨h1, n, hn1, hn2, hn3⟩

/-! ## Row-level outcome analysis -/

/-- Statuses counted as creations by `processBulkImport` (and triggering the
duplicate-index rebuild). -/
def isCreatedStatus : RStatus → Bool
  | .created => true
  | .created_with_suffix => true
  | _ => false

/-- Everything true of a row that resulted in `created` or
`created_with_suffix`: exactly one user and one student were appended, with
the row's data, a `student` role, the hashed (supplied-or-default) password,
and with email/code that were free in the pre-row store. -/
theorem processRecord_created_spec (f : FaultSpec) (r : Rec) (info : DupInfo)
    (strat : Strategy) (s : Store) (o : Outcome) (s' : Store)
    (h : processRecord f r info strat s = (o, s'))
    (hcs : isCreatedStatus o.status = true) :
    ∃ u st, s'.users = s.users ++ [u] ∧ s'.students = s.students ++ [st] ∧
      u.email = o.email ∧ u.name = r.name ∧ u.role = "student" ∧
      u.password_hash = bcryptHash (jsOr r.password "student123") ∧
      st.student_code = r.student_code ∧ st.user_id = u.id ∧
      o.student_code = r.student_code ∧
      emailExistsExact s u.email = false ∧ codeExistsExact s r.student_code = false ∧
      (o.status = .created → o.email = r.email) ∧
      (o.status = .created_with_suffix →
        ∃ n, 1 ≤ n ∧ n ≤ 1000 ∧ o.email = generateEmailWithSuffix r.email n) := by
  rcases hE : mapGet info.emailMap (lower r.email) with _ | hit
  · rcases hC : mapGet info.codeMap r.student_code with _ | chit
    · -- create branch
      rw [processRecord_create_eq f r info strat s hE hC] at h
      split at h
      · obtain ⟨ho, _⟩ := Prod.mk.injEq .. ▸ h
        rw [← ho] at hcs
        exact absurd hcs (by simp [errorOutcome, isCreatedStatus])
      · next u s1 hu =>
        split at h
        · obtain ⟨ho, _⟩ := Prod.mk.injEq .. ▸ h
          rw [← ho] at hcs
          exact absurd hcs (by simp [errorOutcome, isCreatedStatus])
        · next st s2 hst =>
          obtain ⟨ho, hs'⟩ := Prod.mk.injEq .. ▸ h
          obtain ⟨hus, hss, hueq, _, _, hefree⟩ := userCreate_some hu
          obtain ⟨hus2, hss2, hsteq, _, _, hcfree⟩ := studentCreate_some hst
          subst hs'
          refine ⟨u, st, by rw [hus2, hus], by rw [hss2, hss], ?_⟩
          rw [← ho]
          have hcode : st.student_code = r.student_code := by rw [hsteq]
          have hcfree' : codeExistsExact s r.student_code = false := by
            rw [codeExistsExact] at hcfree ⊢
            rw [← hss]
            exact hcfree
          refine ⟨rfl, by rw [hueq], by rw [hueq], by rw [hueq], hcode, by rw [hsteq],
            hcode, by rw [hueq]; exact hefree, hcfree', ?_, ?_⟩
          · intro _
            rw [hueq]
          · intro hcontra
            exact absurd hcontra (by simp)
    · -- email not duplicated, code duplicated: never creates
      cases strat with
      | skip =>
        rw [processRecord_skip_eq f r info s (Or.inr (by simp [hC]))] at h
        obtain ⟨ho, _⟩ := Prod.mk.injEq .. ▸ h
        rw [← ho] at hcs
        exact absurd hcs (by simp [skippedOutcome, isCreatedStatus])
      | update =>
        rw [processRecord_update_noemail_eq f r info s hE (by simp [hC])] at h
        obtain ⟨ho, _⟩ := Prod.mk.injEq .. ▸ h
        rw [← ho] at hcs
        exact absurd hcs (by simp [skippedOutcome, isCreatedStatus])
      | suffix =>
        rw [processRecord_suffix_codeonly_eq f r info s hE (by simp [hC])] at h
        obtain ⟨ho, _⟩ := Prod.mk.injEq .. ▸ h
        rw [← ho] at hcs
        exact absurd hcs (by simp [skippedOutcome, isCreatedStatus])
  · cases strat with
    | skip =>
      rw [processRecord_skip_eq f r info s (Or.inl (by simp [hE]))] at h
      obtain ⟨ho, _⟩ := Prod.mk.injEq .. ▸ h
      rw [← ho] at hcs
      exact absurd hcs (by simp [skippedOutcome, isCreatedStatus])
    | update =>
      rcases hs : hit.student with _ | st
      · rw [processRecord_update_noprofile_eq f r info s hit hE hs] at h
        obtain ⟨ho, _⟩ := Prod.mk.injEq .. ▸ h
        rw [← ho] at hcs
        exact absurd hcs (by simp [skippedOutcome, isCreatedStatus])
      · rw [processRecord_update_hit_eq f r info s hit st hE hs] at h
        obtain ⟨ho, _⟩ := Prod.mk.injEq .. ▸ h
        rw [← ho] at hcs
        exact absurd hcs (by simp [isCreatedStatus])
    | suffix =>
      rcases hfa : findAvailableEmail s r.email with _ | newEmail
      · rw [processRecord_suffix_alloc_fail_eq f r info s (by simp [hE]) hfa] at h
        obtain ⟨ho, _⟩ := Prod.mk.injEq .. ▸ h
        rw [← ho] at hcs
        exact absurd hcs (by simp [errorOutcome, isCreatedStatus])
      · rcases hu : userCreate f s newEmail r.name
            (bcryptHash (jsOr r.password "student123")) "student" with _ | ⟨u, s1⟩
        · rw [processRecord_suffix_ucfail_eq f r info s newEmail (by simp [hE]) hfa hu]
            at h
          obtain ⟨ho, _⟩ := Prod.mk.injEq .. ▸ h
          rw [← ho] at hcs
          exact absurd hcs (by simp [errorOutcome, isCreatedStatus])
        · rcases hC : mapGet info.codeMap r.student_code with _ | chit
          · rw [processRecord_suffix_create_eq f r info s newEmail u s1
              (by simp [hE]) hfa hu hC] at h
            split at h
            · obtain ⟨ho, _⟩ := Prod.mk.injEq .. ▸ h
              rw [← ho] at hcs
              exact absurd hcs (by simp [errorOutcome, isCreatedStatus])
            · next st s2 hst =>
              obtain ⟨ho, hs'⟩ := Prod.mk.injEq .. ▸ h
              obtain ⟨hus, hss, hueq, _, _, hefree⟩ := userCreate_some hu
              obtain ⟨hus2, hss2, hsteq, _, _, hcfree⟩ := studentCreate_some hst
              subst hs'
              obtain ⟨hfree, n, hn1, hn2, hn3⟩ := findAvailableEmail_some_spec hfa
              refine ⟨u, st, by rw [hus2, hus], by rw [hss2, hss], ?_⟩
              rw [← ho]
              have hcode : st.student_code = r.student_code := by rw [hsteq]
              have hcfree' : codeExistsExact s r.student_code = false := by
                rw [codeExistsExact] at hcfree ⊢
                rw [← hss]
                exact hcfree
              refine ⟨rfl, by rw [hueq], by rw [hueq], by rw [hueq], hcode,
                by rw [hsteq], hcode, by rw [hueq]; exact hfree, hcfree', ?_, ?_⟩
              · intro hcontra
                exact absurd hcontra (by simp)
              · intro _
                rw [hueq]
                exact ⟨n, hn1, hn2, hn3⟩
          · rw [processRecord_suffix_codedup_eq f r info s newEmail u s1
              (by simp [hE]) hfa hu (by simp [hC])] at h
            obtain ⟨ho, _⟩ := Prod.mk.injEq .. ▸ h
            rw [← ho] at hcs
            exact absurd hcs (by simp [skippedOutcome, isCreatedStatus])

/-! ## Claim theorems: row-level properties -/

/-- C5: for a row processed with strategy `suffix` whose email and student
code both collide (both duplicate lookups hit), provided the suffix
allocation finds a free address and the user insert does not fault, the
just-created suffixed account is rolled back: the outcome is `skipped` with
the code-collision message and the store is left exactly unchanged by the
row (no orphaned account remains). -/
theorem suffix_code_collision_rolls_back (f : FaultSpec) (r : Rec) (info : DupInfo)
    (s : Store) (hit : EmailHit) (chit : CodeHit) (e : String)
    (hE : mapGet info.emailMap (lower r.email) = some hit)
    (hC : mapGet info.codeMap r.student_code = some chit)
    (hfa : findAvailableEmail s r.email = some e)
    (hfault : f.userCreateFails e = false) :
    processRecord f r info .suffix s =
      (skippedOutcome r "Student code already exists - cannot create with suffix",
       s) := by
  have hfree : emailExistsExact s e = false := (findAvailableEmail_some_spec hfa).1
  have hu : userCreate f s e r.name (bcryptHash (jsOr r.password "student123"))
      "student" = some (⟨s.nextId, e, r.name,
        bcryptHash (jsOr r.password "student123"), "student"⟩,
        ⟨s.users ++ [⟨s.nextId, e, r.name,
          bcryptHash (jsOr r.password "student123"), "student"⟩],
         s.students, s.nextId + 1⟩) := by
    unfold userCreate
    rw [hfault, hfree]
    rfl
  exact processRecord_suffix_codedup_eq f r info s e _ _ (by simp [hE]) hfa hu
    (by simp [hC])

/-- Witness for C5 at a concrete store, row and duplicate information (the
email and code hits the batch query is designed to deliver for this store). -/
theorem suffix_code_collision_rolls_back_witness :
    processRecord noFaults (⟨"Jane", "j@x.com", "S1", none, none, 1⟩ : Rec)
      (⟨[("j@x.com", ⟨⟨0, "j@x.com", "J", "h", "student"⟩, some ⟨1, 0, "S1", none⟩⟩)],
        [("S1", ⟨⟨0, "j@x.com", "J", "h", "student"⟩, ⟨1, 0, "S1", none⟩⟩)]⟩
        : DupInfo) .suffix
      (⟨[⟨0, "j@x.com", "J", "h", "student"⟩], [⟨1, 0, "S1", none⟩], 2⟩ : Store) =
    (skippedOutcome ⟨"Jane", "j@x.com", "S1", none, none, 1⟩
      "Student code already exists - cannot create with suffix",
     (⟨[⟨0, "j@x.com", "J", "h", "student"⟩], [⟨1, 0, "S1", none⟩], 2⟩ : Store)) :=
  suffix_code_collision_rolls_back noFaults _ _ _
    ⟨⟨0, "j@x.com", "J", "h", "student"⟩, some ⟨1, 0, "S1", none⟩⟩
    ⟨⟨0, "j@x.com", "J", "h", "student"⟩, ⟨1, 0, "S1", none⟩⟩
    "j_1@x.com" (by decide) (by decide) (by decide) rfl

/-- C6: `findAvailableEmail` returns `local_n@domain` for the smallest
`n ≥ 1` whose variant is not in the store, probing `n = 1, 2, 3, …`; if every
variant up to `n = 1000` exists it fails (the
`Could not find available email` throw, modelled as `none`). -/
theorem findAvailableEmail_allocates_least_or_exhausts (s : Store) (orig : String) :
    (∀ n : Nat, 1 ≤ n → n ≤ 1000 →
      emailExistsExact s (generateEmailWithSuffix orig n) = false →
      (∀ m : Nat, m < n → 1 ≤ m →
        emailExistsExact s (generateEmailWithSuffix orig m) = true) →
      findAvailableEmail s orig = some (generateEmailWithSuffix orig n)) ∧
    ((∀ m : Nat, m ≤ 1000 → 1 ≤ m →
        emailExistsExact s (generateEmailWithSuffix orig m) = true) →
      findAvailableEmail s orig = none) := by
  constructor
  · intro n h1 h2 h3 h4
    exact findAvailableEmailFrom_eq_some s orig 1000 1 n rfl le_rfl h1 h2 h3
      (fun m hm1 hm2 => h4 m hm2 hm1)
  · intro h
    exact findAvailableEmailFrom_eq_none s orig 1000 1 rfl le_rfl
      (fun m hm1 hm2 => h m hm2 hm1)

/-- Witness for C6: with `a_1@x.com` taken and `a_2@x.com` free, the allocator
returns the suffix-2 variant. -/
theorem findAvailableEmail_allocates_least_or_exhausts_witness :
    findAvailableEmail (⟨[⟨0, "a_1@x.com", "n", "h", "student"⟩], [], 1⟩ : Store)
      "a@x.com" = some (generateEmailWithSuffix "a@x.com" 2) :=
  (findAvailableEmail_allocates_least_or_exhausts
      (⟨[⟨0, "a_1@x.com", "n", "h", "student"⟩], [], 1⟩ : Store) "a@x.com").1
    2 (by decide) (by decide) (by decide)
    (by decide)

/-- C9: a row whose outcome is `updated` changes only the matched account's
`name` and its profile's `phone`; ids, emails, password hashes, roles and
student codes are unchanged, and every user and student other than the
matched pair is left exactly as it was. -/
theorem update_frame_property (f : FaultSpec) (r : Rec) (info : DupInfo)
    (s : Store) (o : Outcome) (s' : Store)
    (h : processRecord f r info .update s = (o, s')) (hst : o.status = .updated) :
    ∃ hit st, mapGet info.emailMap (lower r.email) = some hit ∧
      hit.student = some st ∧ s'.nextId = s.nextId ∧
      List.Forall₂ (fun (u u' : UserRec) => u'.id = u.id ∧ u'.email = u.email ∧
        u'.password_hash = u.password_hash ∧ u'.role = u.role ∧
        (u.id ≠ hit.user.id → u' = u) ∧
        (u.id = hit.user.id → u' = { u with name := r.name })) s.users s'.users ∧
      List.Forall₂ (fun (t t' : StudentRec) => t'.id = t.id ∧
        t'.user_id = t.user_id ∧ t'.student_code = t.student_code ∧
        (t.id ≠ st.id → t' = t) ∧
        (t.id = st.id → t' = { t with phone := jsOrOpt r.phone st.phone }))
        s.students s'.students := by
  rcases hE : mapGet info.emailMap (lower r.email) with _ | hit
  · rcases hC : mapGet info.codeMap r.student_code with _ | chit
    · rw [processRecord_create_eq f r info .update s hE hC] at h
      split at h
      · obtain ⟨ho, _⟩ := Prod.mk.injEq .. ▸ h
        rw [← ho] at hst
        exact absurd hst (by simp [errorOutcome])
      · split at h
        · obtain ⟨ho, _⟩ := Prod.mk.injEq .. ▸ h
          rw [← ho] at hst
          exact absurd hst (by simp [errorOutcome])
        · obtain ⟨ho, _⟩ := Prod.mk.injEq .. ▸ h
          rw [← ho] at hst
          exact absurd hst (by simp)
    · rw [processRecord_update_noemail_eq f r info s hE (by simp [hC])] at h
      obtain ⟨ho, _⟩ := Prod.mk.injEq .. ▸ h
      rw [← ho] at hst
      exact absurd hst (by simp [skippedOutcome])
  · rcases hs : hit.student with _ | st
    · rw [processRecord_update_noprofile_eq f r info s hit hE hs] at h
      obtain ⟨ho, _⟩ := Prod.mk.injEq .. ▸ h
      rw [← ho] at hst
      exact absurd hst (by simp [skippedOutcome])
    · rw [processRecord_update_hit_eq f r info s hit st hE hs] at h
      obtain ⟨_, hs'⟩ := Prod.mk.injEq .. ▸ h
      refine ⟨hit, st, rfl, hs, ?_, ?_, ?_⟩
      · rw [← hs']
        rfl
      · rw [← hs']
        show List.Forall₂ _ s.users (s.users.map
          (fun u => if u.id = hit.user.id then { u with name := r.name } else u))
        rw [List.forall₂_map_right_iff]
        rw [List.forall₂_same]
        intro u _
        by_cases hid : u.id = hit.user.id
        · rw [if_pos hid]
          exact ⟨rfl, rfl, rfl, rfl, fun hcontra => absurd hid hcontra, fun _ => rfl⟩
        · rw [if_neg hid]
          exact ⟨rfl, rfl, rfl, rfl, fun _ => rfl, fun hcontra => absurd hcontra hid⟩
      · rw [← hs']
        show List.Forall₂ _ s.students (s.students.map
          (fun t => if t.id = st.id then { t with phone := jsOrOpt r.phone st.phone }
            else t))
        rw [List.forall₂_map_right_iff]
        rw [List.forall₂_same]
        intro t _
        by_cases hid : t.id = st.id
        · rw [if_pos hid]
          exact ⟨rfl, rfl, rfl, fun hcontra => absurd hid hcontra, fun _ => rfl⟩
        · rw [if_neg hid]
          exact ⟨rfl, rfl, rfl, fun _ => rfl, fun hcontra => absurd hcontra hid⟩

/-- Witness for C9 at a concrete updated row, with the duplicate information
the batch query is designed to deliver for the concrete store. -/
theorem update_frame_property_witness :
    ∃ hit st,
      mapGet (DupInfo.emailMap
        ⟨[("jane@x.com", ⟨⟨0, "jane@x.com", "Old", "h", "student"⟩,
            some ⟨1, 0, "S1", some "111"⟩⟩)],
          [("S1", ⟨⟨0, "jane@x.com", "Old", "h", "student"⟩,
            ⟨1, 0, "S1", some "111"⟩⟩)]⟩)
        (lower (Rec.email ⟨"New", "jane@x.com", "S1", some "999", none, 1⟩))
        = some hit ∧
      hit.student = some st ∧
      (processRecord noFaults (⟨"New", "jane@x.com", "S1", some "999", none, 1⟩ : Rec)
        (⟨[("jane@x.com", ⟨⟨0, "jane@x.com", "Old", "h", "student"⟩,
            some ⟨1, 0, "S1", some "111"⟩⟩)],
          [("S1", ⟨⟨0, "jane@x.com", "Old", "h", "student"⟩,
            ⟨1, 0, "S1", some "111"⟩⟩)]⟩ : DupInfo) .update
        (⟨[⟨0, "jane@x.com", "Old", "h", "student"⟩], [⟨1, 0, "S1", some "111"⟩], 2⟩
          : Store)).2.nextId =
      (⟨[⟨0, "jane@x.com", "Old", "h", "student"⟩], [⟨1, 0, "S1", some "111"⟩], 2⟩
        : Store).nextId ∧
      List.Forall₂ (fun (u u' : UserRec) => u'.id = u.id ∧ u'.email = u.email ∧
        u'.password_hash = u.password_hash ∧ u'.role = u.role ∧
        (u.id ≠ hit.user.id → u' = u) ∧
        (u.id = hit.user.id → u' = { u with name := "New" }))
        [⟨0, "jane@x.com", "Old", "h", "student"⟩]
        (processRecord noFaults (⟨"New", "jane@x.com", "S1", some "999", none, 1⟩ : Rec)
          (⟨[("jane@x.com", ⟨⟨0, "jane@x.com", "Old", "h", "student"⟩,
              some ⟨1, 0, "S1", some "111"⟩⟩)],
            [("S1", ⟨⟨0, "jane@x.com", "Old", "h", "student"⟩,
              ⟨1, 0, "S1", some "111"⟩⟩)]⟩ : DupInfo) .update
          (⟨[⟨0, "jane@x.com", "Old", "h", "student"⟩], [⟨1, 0, "S1", some "111"⟩], 2⟩
            : Store)).2.users ∧
      List.Forall₂ (fun (t t' : StudentRec) => t'.id = t.id ∧
        t'.user_id = t.user_id ∧ t'.student_code = t.student_code ∧
        (t.id ≠ st.id → t' = t) ∧
        (t.id = st.id → t' = { t with
          phone := jsOrOpt (some "999") st.phone }))
        [⟨1, 0, "S1", some "111"⟩]
        (processRecord noFaults (⟨"New", "jane@x.com", "S1", some "999", none, 1⟩ : Rec)
          (⟨[("jane@x.com", ⟨⟨0, "jane@x.com", "Old", "h", "student"⟩,
              some ⟨1, 0, "S1", some "111"⟩⟩)],
            [("S1", ⟨⟨0, "jane@x.com", "Old", "h", "student"⟩,
              ⟨1, 0, "S1", some "111"⟩⟩)]⟩ : DupInfo) .update
          (⟨[⟨0, "jane@x.com", "Old", "h", "student"⟩], [⟨1, 0, "S1", some "111"⟩], 2⟩
            : Store)).2.students :=
  update_frame_property noFaults ⟨"New", "jane@x.com", "S1", some "999", none, 1⟩
    (⟨[("jane@x.com", ⟨⟨0, "jane@x.com", "Old", "h", "student"⟩,
        some ⟨1, 0, "S1", some "111"⟩⟩)],
      [("S1", ⟨⟨0, "jane@x.com", "Old", "h", "student"⟩,
        ⟨1, 0, "S1", some "111"⟩⟩)]⟩ : DupInfo)
    (⟨[⟨0, "jane@x.com", "Old", "h", "student"⟩], [⟨1, 0, "S1", some "111"⟩], 2⟩
      : Store) _ _ rfl (by decide)

/-- C10: every account persisted by a `created` or `created_with_suffix` row
has role `student` and, when the row carries no password, the bcrypt hash of
the default password `student123`; a supplied (non-empty) password is hashed
and used instead. -/
theorem created_default_credentials (f : FaultSpec) (r : Rec) (info : DupInfo)
    (strat : Strategy) (s : Store) (o : Outcome) (s' : Store)
    (h : processRecord f r info strat s = (o, s'))
    (hcs : isCreatedStatus o.status = true) :
    ∃ u ∈ s'.users, u.email = o.email ∧ u.role = "student" ∧
      (r.password = none → u.password_hash = bcryptHash "student123") ∧
      (∀ p, r.password = some p → p ≠ "" → u.password_hash = bcryptHash p) := by
  obtain ⟨u, st, hus, _, hue, _, hur, huh, _⟩ :=
    processRecord_created_spec f r info strat s o s' h hcs
  refine ⟨u, by rw [hus]; simp, hue, hur, ?_, ?_⟩
  · intro hp
    rw [huh, hp]
    rfl
  · intro p hp hne
    rw [huh, hp]
    show bcryptHash (if p = "" then "student123" else p) = bcryptHash p
    rw [if_neg hne]

/-- Witness for C10: a password-less created row (empty duplicate maps, as for
an empty store) stores the default hash. -/
theorem created_default_credentials_witness :
    ∃ u ∈ (processRecord noFaults (⟨"John", "john@x.com", "S1", none, none, 1⟩ : Rec)
        (⟨[], []⟩ : DupInfo) .skip (⟨[], [], 0⟩ : Store)).2.users,
      u.email = (processRecord noFaults
        (⟨"John", "john@x.com", "S1", none, none, 1⟩ : Rec)
        (⟨[], []⟩ : DupInfo) .skip (⟨[], [], 0⟩ : Store)).1.email ∧
      u.role = "student" ∧
      ((Rec.password ⟨"John", "john@x.com", "S1", none, none, 1⟩) = none →
        u.password_hash = bcryptHash "student123") ∧
      (∀ p, (Rec.password ⟨"John", "john@x.com", "S1", none, none, 1⟩) = some p →
        p ≠ "" → u.password_hash = bcryptHash p) :=
  created_default_credentials noFaults ⟨"John", "john@x.com", "S1", none, none, 1⟩
    (⟨[], []⟩ : DupInfo) .skip (⟨[], [], 0⟩ : Store)
    _ _ rfl (by decide)

/-- C3 (code bug, evaluated at the failing input): with the duplicate
information the batch query is designed to deliver — the row's email
resolving to the stored account `jane@x.com` with linked profile code `S1`,
and the row's code `S2` matching no profile — the row is reported `updated`,
and the stored name is mutated, under strategy `update`, although the update
branch's own comment (`Only update if both email and student code match the
same record`) and the spec require it to be `skipped` with a mismatch message
and no mutation. -/
theorem update_code_mismatch_still_updates :
    ((processRecord noFaults (⟨"New Name", "jane@x.com", "S2", some "999", none, 1⟩
        : Rec)
      (⟨[("jane@x.com", ⟨⟨0, "jane@x.com", "Old Name", "h", "student"⟩,
          some ⟨1, 0, "S1", some "111"⟩⟩)], []⟩ : DupInfo) .update
      (⟨[⟨0, "jane@x.com", "Old Name", "h", "student"⟩],
        [⟨1, 0, "S1", some "111"⟩], 2⟩ : Store)).1.status = .updated) ∧
    ((processRecord noFaults (⟨"New Name", "jane@x.com", "S2", some "999", none, 1⟩
        : Rec)
      (⟨[("jane@x.com", ⟨⟨0, "jane@x.com", "Old Name", "h", "student"⟩,
          some ⟨1, 0, "S1", some "111"⟩⟩)], []⟩ : DupInfo) .update
      (⟨[⟨0, "jane@x.com", "Old Name", "h", "student"⟩],
        [⟨1, 0, "S1", some "111"⟩], 2⟩ : Store)).2.users.map UserRec.name
      = ["New Name"]) := by
  refine ⟨by decide, by decide⟩

/-! ## Internal-duplicate detection: exact characterization -/

/-- Reference definition following the spec's words (§4.2): scan the rows in
order; a row yields an `email` entry when its normalized email already
occurred in an earlier row (recording the first such row's number), and a
`student_code` entry likewise for its code. -/
def internalDupSpecAux : List Rec → List Rec → List InternalDup
  | _, [] => []
  | seen, r :: rest =>
    (match (seen.find? (fun x => lower x.email = lower r.email)).map Rec.rowNumber
        with
     | some first => [⟨r.rowNumber, "email", r.email, first,
        "Duplicate email found (first occurrence at row " ++ toString first ++ ")"⟩]
     | none => []) ++
    (match (seen.find? (fun x => x.student_code = r.student_code)).map Rec.rowNumber
        with
     | some first => [⟨r.rowNumber, "student_code", r.student_code, first,
        "Duplicate student code found (first occurrence at row " ++ toString first
          ++ ")"⟩]
     | none => []) ++
    internalDupSpecAux (seen ++ [r]) rest

/-- Reference meaning of `detectInternalDuplicates`: each row is compared
against all earlier rows of the same file. -/
def internalDupSpec (records : List Rec) : List InternalDup :=
  internalDupSpecAux [] records

/-- Appending a row whose key is already seen does not change what any key's
first occurrence resolves to. -/
theorem find?_invariant_keep (κ : Rec → String) (seen : List Rec) (r : Rec)
    (m : List (String × Nat))
    (hm : ∀ k, mapGet m k = (seen.find? (fun x => κ x = k)).map Rec.rowNumber)
    (hf : seen.find? (fun x => κ x = κ r) ≠ none) :
    ∀ k, mapGet m k = ((seen ++ [r]).find? (fun x => κ x = k)).map Rec.rowNumber := by
  intro k
  rw [List.find?_append]
  rcases hsk : seen.find? (fun x => κ x = k) with _ | xk
  · rw [Option.none_or]
    have hne : κ r ≠ k := by
      intro hh
      rw [hh] at hf
      exact hf hsk
    rw [List.find?_cons_of_neg _ (by simpa using hne)]
    rw [hm k, hsk]
    rfl
  · rw [hm k, hsk]
    rfl

/-- Recording a first-seen key extends the map exactly as the first-occurrence
search over the extended prefix. -/
theorem find?_invariant_set (κ : Rec → String) (seen : List Rec) (r : Rec)
    (m : List (String × Nat))
    (hm : ∀ k, mapGet m k = (seen.find? (fun x => κ x = k)).map Rec.rowNumber)
    (hf : seen.find? (fun x => κ x = κ r) = none) :
    ∀ k, mapGet (mapSet m (κ r) r.rowNumber) k =
      ((seen ++ [r]).find? (fun x => κ x = k)).map Rec.rowNumber := by
  intro k
  rw [List.find?_append, mapGet_mapSet]
  by_cases hk : κ r = k
  · subst hk
    rw [if_pos rfl, hf, Option.none_or, List.find?_cons_of_pos _ (by simp)]
    rfl
  · rw [if_neg hk]
    rcases hsk : seen.find? (fun x => κ x = k) with _ | xk
    · rw [Option.none_or, List.find?_cons_of_neg _ (by simpa using hk)]
      rw [hm k, hsk]
      rfl
    · rw [hm k, hsk]
      rfl

theorem detectInternalDuplicatesAux_spec :
    ∀ (records seen : List Rec) (em cm : List (String × Nat))
      (ds : List InternalDup),
    (∀ k, mapGet em k =
      (seen.find? (fun x => lower x.email = k)).map Rec.rowNumber) →
    (∀ k, mapGet cm k =
      (seen.find? (fun x => x.student_code = k)).map Rec.rowNumber) →
    detectInternalDuplicatesAux records em cm ds =
      ds ++ internalDupSpecAux seen records := by
  intro records
  induction records with
  | nil =>
    intro seen em cm ds _ _
    simp [detectInternalDuplicatesAux, internalDupSpecAux]
  | cons r rest ih =>
    intro seen em cm ds hem hcm
    rw [detectInternalDuplicatesAux, internalDupSpecAux]
    rw [hem (lower r.email), hcm r.student_code]
    rcases hfE : seen.find? (fun x => lower x.email = lower r.email) with _ | xE <;>
      rcases hfC : seen.find? (fun x => x.student_code = r.student_code) with _ | xC
    · simp only [hfE, hfC, Option.map_none']
      rw [ih (seen ++ [r]) (mapSet em (lower r.email) r.rowNumber)
        (mapSet cm r.student_code r.rowNumber) _
        (find?_invariant_set (fun x => lower x.email) seen r em hem hfE)
        (find?_invariant_set (fun x => x.student_code) seen r cm hcm hfC)]
      simp
    · simp only [hfE, hfC, Option.map_none', Option.map_some']
      rw [ih (seen ++ [r]) (mapSet em (lower r.email) r.rowNumber) cm _
        (find?_invariant_set (fun x => lower x.email) seen r em hem hfE)
        (find?_invariant_keep (fun x => x.student_code) seen r cm hcm
          (by rw [hfC]; simp))]
      simp
    · simp only [hfE, hfC, Option.map_none', Option.map_some']
      rw [ih (seen ++ [r]) em (mapSet cm r.student_code r.rowNumber) _
        (find?_invariant_keep (fun x => lower x.email) seen r em hem
          (by rw [hfE]; simp))
        (find?_invariant_set (fun x => x.student_code) seen r cm hcm hfC)]
      simp
    · simp only [hfE, hfC, Option.map_some']
      rw [ih (seen ++ [r]) em cm _
        (find?_invariant_keep (fun x => lower x.email) seen r em hem
          (by rw [hfE]; simp))
        (find?_invariant_keep (fun x => x.student_code) seen r cm hcm
          (by rw [hfC]; simp))]
      simp

/-- C7: `detectInternalDuplicates` reports a duplicate entry exactly for each
row whose normalized email (resp. student code) occurred in an earlier row of
the same file, recording the first-seen row number (the list equals the
reference `internalDupSpec`); and whenever any such duplicate exists, the
whole bulk-import call is rejected before any batch processing, with zero
persistence writes. -/
theorem internal_duplicates_exact_and_fail_fast (records : List Rec) :
    (detectInternalDuplicates records).duplicates = internalDupSpec records ∧
    (detectInternalDuplicates records).hasDuplicates
      = !(internalDupSpec records).isEmpty ∧
    ((detectInternalDuplicates records).hasDuplicates = true →
      ∀ (f : FaultSpec) (strat : Strategy) (s : Store),
        (bulkImport f records strat s).2 = s ∧
        ∃ err, (bulkImport f records strat s).1 = .error err) := by
  have hdup : (detectInternalDuplicates records).duplicates
      = internalDupSpec records := by
    show detectInternalDuplicatesAux records [] [] [] = internalDupSpecAux [] records
    rw [detectInternalDuplicatesAux_spec records [] [] [] []
      (fun k => rfl) (fun k => rfl)]
    rfl
  refine ⟨hdup, ?_, ?_⟩
  · show (!(detectInternalDuplicatesAux records [] [] []).isEmpty)
      = !(internalDupSpec records).isEmpty
    rw [show detectInternalDuplicatesAux records [] [] []
      = internalDupSpec records from hdup]
  · intro hdups f strat s
    rw [bulkImport]
    by_cases hlen : records.length = 0
    · rw [if_pos hlen]
      exact ⟨rfl, .noValidRecords, rfl⟩
    · rw [if_neg hlen]
      dsimp only
      rw [hdups]
      exact ⟨rfl, .internalDuplicates (detectInternalDuplicates records).duplicates,
        rfl⟩

/-- Witness for C7: a file with an internal email duplicate is rejected whole
with the store untouched. -/
theorem internal_duplicates_exact_and_fail_fast_witness :
    (bulkImport noFaults
      [⟨"A", "j@x.com", "S1", none, none, 1⟩,
       ⟨"B", "j@x.com", "S2", none, none, 2⟩] .skip (⟨[], [], 0⟩ : Store)).2
      = (⟨[], [], 0⟩ : Store) ∧
    ∃ err, (bulkImport noFaults
      [⟨"A", "j@x.com", "S1", none, none, 1⟩,
       ⟨"B", "j@x.com", "S2", none, none, 2⟩] .skip (⟨[], [], 0⟩ : Store)).1
      = .error err :=
  (internal_duplicates_exact_and_fail_fast
    [⟨"A", "j@x.com", "S1", none, none, 1⟩,
     ⟨"B", "j@x.com", "S2", none, none, 2⟩]).2.2 (by decide) noFaults .skip
    (⟨[], [], 0⟩ : Store)

/-! ## The batch runs themselves: rejected before any row

The first `detectDatabaseDuplicates` call of every nonempty run rejects with
the eager-loading error (its `include` alias `student` matches no registered
association), outside any `try`/`catch`, so the run rejects with zero rows
processed and zero writes.  The following theorems evaluate this at the
concrete inputs of claims C1, C2, C4 and C8. -/

/-- C1 (code bug, evaluated at a nonempty precheck-passing row set): the two
rows pass the internal-duplicate precheck, yet `processBulkImport` rejects at
the first batch's `detectDatabaseDuplicates` call — whose `User.findAll` asks
for the include alias `student` while the only registered User→Student
association is `studentProfile` — leaving the store exactly unchanged.  No
nonempty run ever completes and no record is ever created, so the claimed
uniqueness of the records created by a completed run is reachable only
vacuously. -/
theorem import_rejects_before_creating :
    (detectInternalDuplicates
      [⟨"A", "John@x.com", "SA", none, none, 1⟩,
       ⟨"B", "john_1@x.com", "SB", none, none, 2⟩]).hasDuplicates = false ∧
    (processBulkImport noFaults
      [⟨"A", "John@x.com", "SA", none, none, 1⟩,
       ⟨"B", "john_1@x.com", "SB", none, none, 2⟩] .suffix
      (⟨[⟨0, "john@x.com", "Old", "h", "student"⟩], [], 1⟩ : Store)).1
      = .error (.eagerLoading "student") ∧
    (processBulkImport noFaults
      [⟨"A", "John@x.com", "SA", none, none, 1⟩,
       ⟨"B", "john_1@x.com", "SB", none, none, 2⟩] .suffix
      (⟨[⟨0, "john@x.com", "Old", "h", "student"⟩], [], 1⟩ : Store)).2
      = (⟨[⟨0, "john@x.com", "Old", "h", "student"⟩], [], 1⟩ : Store) := by
  refine ⟨by decide, rfl, by decide⟩

/-- C2 (code bug, evaluated at the failing input): two rows of one batch
window share the normalized email `jdup@x.com`, the store holds neither row's
email or code, the strategy is `skip` — the claim says exactly one `created`
and one `skipped`, but the run rejects with the eager-loading error at the
batch-start duplicate query, produces no row outcomes at all, and writes
nothing. -/
theorem within_batch_pair_never_resolved :
    lower ((⟨"John", "jdup@x.com", "S1", none, none, 1⟩ : Rec).email)
      = lower ((⟨"Jane", "jdup@x.com", "S2", none, none, 2⟩ : Rec).email) ∧
    (processBulkImport noFaults
      [⟨"John", "jdup@x.com", "S1", none, none, 1⟩,
       ⟨"Jane", "jdup@x.com", "S2", none, none, 2⟩] .skip
      (⟨[], [], 0⟩ : Store)).1 = .error (.eagerLoading "student") ∧
    (processBulkImport noFaults
      [⟨"John", "jdup@x.com", "S1", none, none, 1⟩,
       ⟨"Jane", "jdup@x.com", "S2", none, none, 2⟩] .skip
      (⟨[], [], 0⟩ : Store)).2 = (⟨[], [], 0⟩ : Store) := by
  refine ⟨by decide, rfl, by decide⟩

/-- C4 (code bug, evaluated at the failing input): with `Student.create`
poised to hit a persistence error on code `S1`, the claimed row-level
rollback-recorded-failed-and-continue behavior never happens: the run rejects
at the batch-start duplicate query before any row transaction is opened, so
nothing is rolled back, nothing is recorded as failed, no subsequent row is
processed, and the store stays empty.  (The row-level error handling the
claim describes is additionally contradicted in the row logic itself: the
`catch` inside `processRecord` swallows persistence errors and returns a
normal `{status: 'error'}` before the caller's `transaction.commit()`, so the
rollback in `processBulkImport`'s `catch` could not fire for them either.) -/
theorem persistence_error_path_unreachable :
    (processBulkImport (⟨fun _ => false, fun c => c = "S1"⟩ : FaultSpec)
      [⟨"John", "john@x.com", "S1", none, none, 1⟩,
       ⟨"Mary", "mary@x.com", "S2", none, none, 2⟩] .skip
      (⟨[], [], 0⟩ : Store)).1 = .error (.eagerLoading "student") ∧
    (processBulkImport (⟨fun _ => false, fun c => c = "S1"⟩ : FaultSpec)
      [⟨"John", "john@x.com", "S1", none, none, 1⟩,
       ⟨"Mary", "mary@x.com", "S2", none, none, 2⟩] .skip
      (⟨[], [], 0⟩ : Store)).2 = (⟨[], [], 0⟩ : Store) := by
  refine ⟨rfl, by decide⟩

/-- C8 (code bug, evaluated at a row set that ought to import cleanly): the
first `skip` run rejects at its first duplicate query with the store
untouched, and re-running the identical row set against the resulting store
rejects identically — neither run returns a summary, so no row set imports
cleanly and a second-run `created = 0` summary is not a behavior the program
exhibits. -/
theorem skip_rerun_never_returns :
    (processBulkImport noFaults [⟨"John", "solo@x.com", "S9", none, none, 1⟩] .skip
      (⟨[], [], 0⟩ : Store)).1 = .error (.eagerLoading "student") ∧
    (processBulkImport noFaults [⟨"John", "solo@x.com", "S9", none, none, 1⟩] .skip
      (⟨[], [], 0⟩ : Store)).2 = (⟨[], [], 0⟩ : Store) ∧
    (processBulkImport noFaults [⟨"John", "solo@x.com", "S9", none, none, 1⟩] .skip
      (processBulkImport noFaults [⟨"John", "solo@x.com", "S9", none, none, 1⟩] .skip
        (⟨[], [], 0⟩ : Store)).2).1 = .error (.eagerLoading "student") := by
  refine ⟨rfl, by decide, rfl⟩

end BulkImport
